import Mathlib

set_option maxHeartbeats 1000000

/-!
Shallow embedding of the LensSim repository (src/lens-system.h): the pure
vector helpers (reflect, fresnel, refract), the lens element stack built by
the LensSystem constructor, the sequential ray-transport loop (raytrace) and
the cardinal-point estimation (computeCardinalPoints).

The machine scalar type (Prl2 Real = float) is idealised as the real numbers.
The geometric primitives of the external Prl2 library (Vec3, dot, Ray) and
the per-element intersection capability declared in lens-element.h (a file of
this repository that is not available) are modelled from the spec, as noted
on each such definition; the per-element intersection test is kept fully
abstract (a function parameter), since the spec leaves it unspecified.
-/

/-- Modelled from the spec: a 3-component vector of the external Prl2 library,
in lens-local coordinates with the optical axis along z. -/
@[ext]
structure Vec3 where
  x : ℝ
  y : ℝ
  z : ℝ

instance : Neg Vec3 := ⟨fun v => ⟨-v.x, -v.y, -v.z⟩⟩

instance : Add Vec3 := ⟨fun a b => ⟨a.x + b.x, a.y + b.y, a.z + b.z⟩⟩

instance : SMul ℝ Vec3 := ⟨fun k v => ⟨k * v.x, k * v.y, k * v.z⟩⟩

@[simp]
lemma Vec3.neg_x (v : Vec3) : (-v).x = -v.x := rfl

@[simp]
lemma Vec3.neg_y (v : Vec3) : (-v).y = -v.y := rfl

@[simp]
lemma Vec3.neg_z (v : Vec3) : (-v).z = -v.z := rfl

@[simp]
lemma Vec3.add_x (a b : Vec3) : (a + b).x = a.x + b.x := rfl

@[simp]
lemma Vec3.add_y (a b : Vec3) : (a + b).y = a.y + b.y := rfl

@[simp]
lemma Vec3.add_z (a b : Vec3) : (a + b).z = a.z + b.z := rfl

@[simp]
lemma Vec3.smul_x (k : ℝ) (v : Vec3) : (k • v).x = k * v.x := rfl

@[simp]
lemma Vec3.smul_y (k : ℝ) (v : Vec3) : (k • v).y = k * v.y := rfl

@[simp]
lemma Vec3.smul_z (k : ℝ) (v : Vec3) : (k • v).z = k * v.z := rfl

/-- Modelled from the spec: the Prl2 dot product of two vectors. -/
def dot (a b : Vec3) : ℝ := a.x * b.x + a.y * b.y + a.z * b.z

/-- Embeds reflect from src/lens-system.h: returns -v + 2*dot(v,n)*n. -/
def reflect (v n : Vec3) : Vec3 := -v + (2 * dot v n) • n

/-- Embeds fresnel from src/lens-system.h (Schlick approximation):
f0 = ((n1-n2)/(n1+n2))^2, result f0 + (1-f0)*(1-dot(wo,n))^5. -/
noncomputable def fresnel (wo n : Vec3) (n1 n2 : ℝ) : ℝ :=
  let f0 := ((n1 - n2) / (n1 + n2)) ^ (2 : ℕ)
  f0 + (1 - f0) * (1 - dot wo n) ^ (5 : ℕ)

/-- Embeds refract from src/lens-system.h: eta = ior1/ior2,
cosThetaI = dot(wi,n), sin2ThetaI = max(0, 1-cosThetaI^2),
sin2ThetaT = eta^2*sin2ThetaI; fails when sin2ThetaT >= 1, else returns
eta*(-wi) + (eta*cosThetaI - cosThetaT)*n with cosThetaT = sqrt(1-sin2ThetaT). -/
noncomputable def refract (wi n : Vec3) (ior1 ior2 : ℝ) : Option Vec3 :=
  let eta := ior1 / ior2
  let cosThetaI := dot wi n
  let sin2ThetaI := max 0 (1 - cosThetaI * cosThetaI)
  let sin2ThetaT := eta * eta * sin2ThetaI
  if 1 ≤ sin2ThetaT then none
  else
    let cosThetaT := Real.sqrt (1 - sin2ThetaT)
    some (eta • (-wi) + (eta * cosThetaI - cosThetaT) • n)

/-- Modelled from the spec: the kind-specific data of a lens element declared
in lens-element.h (a repository file not available here): an Aperture carries
no extra data, a Lens carries its curvature radius and its index of
refraction (the medium on the image side of the surface). -/
inductive LensKind where
  | aperture : LensKind
  | lens (curvature_radius : ℝ) (ior : ℝ) : LensKind

/-- Modelled from the spec: a lens element as declared in lens-element.h:
integer index defining stack order, clear-aperture radius, axial thickness to
the next element, axial position z (assigned by the LensSystem constructor),
and the kind-specific data. -/
structure LensElement where
  index : ℕ
  aperture_radius : ℝ
  thickness : ℝ
  z : ℝ
  kind : LensKind

instance : Inhabited LensElement := ⟨⟨0, 0, 0, 0, .aperture⟩⟩

/-- Modelled from the spec: one entry of the lens prescription input, with
fields index, curvature_radius [mm], thickness [mm], eta and
aperture_diameter [mm] (the JSON parsing itself is external). -/
structure LensDescriptor where
  index : ℕ
  curvature_radius : ℝ
  thickness : ℝ
  eta : ℝ
  aperture_diameter : ℝ

/-- Embeds the per-entry body of LensSystem::loadJSON: converts millimeters
to meters, halves the aperture diameter and classifies the element as an
Aperture exactly when the converted curvature radius equals zero (the z field
is not assigned by loadJSON; it is written later by the constructor, so it is
initialised to 0 here). -/
noncomputable def toElement (d : LensDescriptor) : LensElement :=
  let curvature_radius := d.curvature_radius * (1 / 1000)
  let thickness := d.thickness * (1 / 1000)
  let ior := d.eta
  let aperture_radius := (1 / 2) * d.aperture_diameter * (1 / 1000)
  if curvature_radius = 0 then
    ⟨d.index, aperture_radius, thickness, 0, .aperture⟩
  else
    ⟨d.index, aperture_radius, thickness, 0, .lens curvature_radius ior⟩

/-- Ordering relation used by the sort in LensSystem::loadJSON: the C++
comparator is x1->index < x2->index; a std::sort result is exactly a
permutation that is nondecreasing in index, which is what insertion sort
with this reflexive relation produces. -/
def idxLe (a b : LensElement) : Prop := a.index ≤ b.index

instance : DecidableRel idxLe := fun a b => Nat.decLe a.index b.index

instance : IsTotal LensElement idxLe := ⟨fun a b => Nat.le_total a.index b.index⟩

instance : IsTrans LensElement idxLe := ⟨fun _ _ _ hab hbc => Nat.le_trans hab hbc⟩

/-- Embeds LensSystem::loadJSON (minus the external file/JSON handling):
converts every descriptor to an element and sorts the result by index.
There is no duplicate-index check in the source. -/
noncomputable def loadJSON (descs : List LensDescriptor) : List LensElement :=
  List.insertionSort idxLe (descs.map toElement)

/-- Embeds the z-assignment loop of the LensSystem constructor: iterating the
elements from the image-side end (rbegin) toward the object side, accumulate
length += thickness and set z = -length. The recursion processes the head
(the object-side-most element, processed last by the C++ loop) after the
tail, returning also the accumulated length. -/
noncomputable def assignZAux : List LensElement → List LensElement × ℝ
  | [] => ([], 0)
  | e :: rest =>
      let p := assignZAux rest
      let length := p.2 + e.thickness
      ({ e with z := -length } :: p.1, length)

/-- The element list after the constructor has assigned z positions. -/
noncomputable def setElementZ (es : List LensElement) : List LensElement :=
  (assignZAux es).1

/-- Embeds the element-stack part of the LensSystem constructor: load the
prescription, then assign z by accumulating thickness from the image side. -/
noncomputable def constructElements (descs : List LensDescriptor) : List LensElement :=
  setElementZ (loadJSON descs)

lemma assignZAux_snd (es : List LensElement) :
    (assignZAux es).2 = (es.map LensElement.thickness).sum := by
  induction es with
  | nil => simp [assignZAux]
  | cons e rest ih => simp [assignZAux, ih]; ring

lemma setElementZ_get? (es : List LensElement) (i : ℕ) :
    (setElementZ es).get? i = (es.get? i).map (fun e =>
      { e with z := -(((es.drop i).map LensElement.thickness).sum) }) := by
  induction es generalizing i with
  | nil => simp [setElementZ, assignZAux]
  | cons e rest ih =>
    cases i with
    | zero =>
      simp only [setElementZ, assignZAux, List.get?, List.drop, List.map_cons,
        List.sum_cons, Option.map_some]
      rw [assignZAux_snd]
      congr 1
      ring_nf
    | succ i =>
      simp only [setElementZ, assignZAux, List.get?, List.drop]
      exact ih i

lemma setElementZ_map_thickness (es : List LensElement) :
    (setElementZ es).map LensElement.thickness = es.map LensElement.thickness := by
  induction es with
  | nil => simp [setElementZ, assignZAux]
  | cons e rest ih =>
    simp only [setElementZ, assignZAux, List.map_cons] at ih ⊢
    rw [ih]

/-- Modelled from the spec: a ray of the external Prl2 library: origin and
direction in lens-local coordinates; the optical axis is z and the sign of
direction.z encodes the direction of travel (positive = toward image side). -/
structure Ray where
  origin : Vec3
  direction : Vec3

/-- Modelled from the spec: ray evaluation (the Prl2 Ray::operator()),
origin + t * direction. -/
noncomputable def Ray.at (r : Ray) (t : ℝ) : Vec3 := r.origin + t • r.direction

/-- Modelled from the spec: an intersection record as produced by the
per-element intersection capability declared in lens-element.h: hit position
and surface normal. -/
structure Hit where
  hitPos : Vec3
  hitNormal : Vec3

/-- Signed list indexing mirroring the loop bounds check of
LensSystem::raytrace (element_index < 0 or >= elements.size()): none exactly
when the signed index falls outside the stack. -/
def getIdx {α : Type} (l : List α) (i : ℤ) : Option α :=
  if i < 0 then none else l.get? i.toNat

/-- The four ways a LensSystem::raytrace call ends, one per return point of
the source: successful exit past either end of the stack (carrying the
current ray), blocked at an aperture, failed lens surface intersection, and
total internal reflection. -/
inductive RtOutcome where
  | exited (r : Ray) : RtOutcome
  | blocked : RtOutcome
  | missed : RtOutcome
  | tir : RtOutcome

/-- The index update at the top of each loop iteration of
LensSystem::raytrace: element_index += direction.z() > 0 ? 1 : -1. -/
noncomputable def nextIdx (i : ℤ) (ray : Ray) : ℤ :=
  i + if 0 < ray.direction.z then 1 else -1

/-- Embeds the next-element-ior block of the Lens branch of
LensSystem::raytrace: next_ior = 1.0; next_element_index = element_index when
traveling toward +z, else element_index - 1; when next_element_index >= 0 and
that element is a Lens, next_ior becomes its ior. (The source reads
elements[next_element_index] with no upper bounds check; in the loop the
index is always below elements.size(), and the model returns 1 past the
end.) -/
noncomputable def computeNextIor (es : List LensElement) (element_index : ℤ)
    (ray : Ray) : ℝ :=
  let next_element_index :=
    if 0 < ray.direction.z then element_index else element_index - 1
  match getIdx es next_element_index with
  | some next_element =>
      match next_element.kind with
      | .lens _ ior => ior
      | .aperture => 1
  | none => 1

/-- Embeds the while loop of LensSystem::raytrace with explicit fuel (the
source loop is unbounded; a none result means the loop was still running
after the given number of iterations). The loop state is the element index,
the current ray and the tracked ior; the per-element intersection capability
is the abstract parameter intersect. -/
noncomputable def raytraceFuel (es : List LensElement)
    (intersect : LensElement → Ray → Option Hit) (reflection : Bool) :
    ℕ → ℤ → Ray → ℝ → Option RtOutcome
  | 0, _, _, _ => none
  | fuel + 1, element_index, ray, ior =>
    let i := nextIdx element_index ray
    match getIdx es i with
    | none => some (.exited ray)
    | some element =>
      match element.kind with
      | .aperture =>
        match intersect element ray with
        | none => some .blocked
        | some res =>
            raytraceFuel es intersect reflection fuel i
              ⟨res.hitPos, ray.direction⟩ 1
      | .lens _ _ =>
        let next_ior := computeNextIor es i ray
        match intersect element ray with
        | none => some .missed
        | some res =>
          if reflection then
            raytraceFuel es intersect reflection fuel i ray ior
          else
            match refract (-ray.direction) res.hitNormal ior next_ior with
            | none => some .tir
            | some next_direction =>
                raytraceFuel es intersect reflection fuel i
                  ⟨res.hitPos, next_direction⟩ next_ior

/-- Embeds LensSystem::raytrace: the walk starts at index -1 when
direction.z() > 0, else at elements.size(), with tracked ior 1.0. -/
noncomputable def raytrace (es : List LensElement)
    (intersect : LensElement → Ray → Option Hit) (ray_in : Ray)
    (reflection : Bool) (fuel : ℕ) : Option RtOutcome :=
  raytraceFuel es intersect reflection fuel
    (if 0 < ray_in.direction.z then -1 else (es.length : ℤ)) ray_in 1

/-- Claim C4: during raytrace, when the element stepped to is an Aperture:
a failed intersection test terminates the call with failure and no output
ray (the blocked outcome); a successful one leaves the direction unchanged,
moves the origin to the hit point and resets the tracked ior to 1.0 before
the walk continues. -/
theorem raytrace_aperture_step (es : List LensElement)
    (intersect : LensElement → Ray → Option Hit) (reflection : Bool)
    (fuel : ℕ) (element_index : ℤ) (ray : Ray) (ior : ℝ) (e : LensElement)
    (hget : getIdx es (nextIdx element_index ray) = some e)
    (hap : e.kind = .aperture) :
    (intersect e ray = none →
      raytraceFuel es intersect reflection (fuel + 1) element_index ray ior =
        some .blocked) ∧
    (∀ h, intersect e ray = some h →
      raytraceFuel es intersect reflection (fuel + 1) element_index ray ior =
        raytraceFuel es intersect reflection fuel (nextIdx element_index ray)
          ⟨h.hitPos, ray.direction⟩ 1) := by
  constructor
  · intro hmiss
    rw [raytraceFuel]
    simp only [hget, hap, hmiss]
  · intro h hhit
    rw [raytraceFuel]
    simp only [hget, hap, hhit]

/-- Witness for C4: a one-aperture stack with an intersection capability that
always misses blocks the ray. -/
theorem raytrace_aperture_step_witness :
    raytraceFuel [⟨0, 1, 1, 0, .aperture⟩] (fun _ _ => none) false 1 (-1)
      ⟨⟨0, 0, 0⟩, ⟨0, 0, 1⟩⟩ 1 = some .blocked :=
  (raytrace_aperture_step [⟨0, 1, 1, 0, .aperture⟩] (fun _ _ => none) false 0
    (-1) ⟨⟨0, 0, 0⟩, ⟨0, 0, 1⟩⟩ 1 ⟨0, 1, 1, 0, .aperture⟩
    (by norm_num [getIdx, nextIdx]) rfl).1 rfl

/-- Claim C10: with reflection = true, a Lens element whose intersection test
succeeds is traversed as a no-op: ray origin, direction and the tracked ior
are all left unchanged and the walk simply advances; consequently every
successful trace in reflection mode returns a ray whose direction equals the
input direction. -/
theorem raytrace_reflection_noop (es : List LensElement)
    (intersect : LensElement → Ray → Option Hit) :
    (∀ (fuel : ℕ) (element_index : ℤ) (ray : Ray) (ior : ℝ) e c io h,
      getIdx es (nextIdx element_index ray) = some e →
      e.kind = .lens c io →
      intersect e ray = some h →
      raytraceFuel es intersect true (fuel + 1) element_index ray ior =
        raytraceFuel es intersect true fuel (nextIdx element_index ray) ray ior) ∧
    (∀ (fuel : ℕ) (element_index : ℤ) (ray : Ray) (ior : ℝ) (r : Ray),
      raytraceFuel es intersect true fuel element_index ray ior =
        some (.exited r) → r.direction = ray.direction) := by
  constructor
  · intro fuel element_index ray ior e c io h hget hk hhit
    rw [raytraceFuel]
    simp only [hget, hk, hhit, if_true]
  · intro fuel
    induction fuel with
    | zero =>
      intro element_index ray ior r h
      exact absurd h (by rw [raytraceFuel]; simp)
    | succ fuel ih =>
      intro element_index ray ior r h
      rw [raytraceFuel] at h
      cases hg : getIdx es (nextIdx element_index ray) with
      | none =>
        simp only [hg, Option.some.injEq, RtOutcome.exited.injEq] at h
        rw [← h]
      | some element =>
        cases hk : element.kind with
        | aperture =>
          simp only [hg, hk] at h
          cases hint : intersect element ray with
          | none => simp [hint] at h
          | some res =>
            simp only [hint] at h
            exact ih (nextIdx element_index ray) ⟨res.hitPos, ray.direction⟩ 1 r h
        | lens c io =>
          simp only [hg, hk] at h
          cases hint : intersect element ray with
          | none => simp [hint] at h
          | some res =>
            simp only [hint, if_true] at h
            exact ih _ _ _ _ h

/-- Witness for C10: a single-lens stack in reflection mode: the lens step is
a no-op and the trace exits with the input direction. -/
theorem raytrace_reflection_noop_witness :
    raytraceFuel [⟨0, 1, 1, 0, .lens 1 (3 / 2)⟩]
      (fun _ _ => some ⟨⟨0, 0, 0⟩, ⟨0, 0, -1⟩⟩) true 2 (-1)
      ⟨⟨0, 0, 0⟩, ⟨0, 0, 1⟩⟩ 1 =
      raytraceFuel [⟨0, 1, 1, 0, .lens 1 (3 / 2)⟩]
        (fun _ _ => some ⟨⟨0, 0, 0⟩, ⟨0, 0, -1⟩⟩) true 1 0
        ⟨⟨0, 0, 0⟩, ⟨0, 0, 1⟩⟩ 1 ∧
    (⟨0, 0, 1⟩ : Vec3) = (⟨0, 0, 1⟩ : Vec3) := by
  constructor
  · have h := (raytrace_reflection_noop [⟨0, 1, 1, 0, .lens 1 (3 / 2)⟩]
      (fun _ _ => some ⟨⟨0, 0, 0⟩, ⟨0, 0, -1⟩⟩)).1 1 (-1)
      ⟨⟨0, 0, 0⟩, ⟨0, 0, 1⟩⟩ 1 ⟨0, 1, 1, 0, .lens 1 (3 / 2)⟩ 1 (3 / 2)
      ⟨⟨0, 0, 0⟩, ⟨0, 0, -1⟩⟩ (by norm_num [getIdx, nextIdx]) rfl rfl
    have hidx : nextIdx (-1) (⟨⟨0, 0, 0⟩, ⟨0, 0, 1⟩⟩ : Ray) = 0 := by
      norm_num [nextIdx]
    rw [hidx] at h
    exact h
  · rfl

/-- Claim C3 (amended): when raytrace processes a Lens at (already stepped)
index i, the ior2 handed to refract is: when traveling toward +z, the ior of
the element at index i itself (the medium on the image side of the surface
being crossed) when that element is a Lens; when traveling toward -z, the
ior of the element at index i-1 when it exists and is a Lens; 1.0 otherwise
(the consulted slot absent from the stack, or holding an Aperture, in either
direction of travel). On a successful refraction this same value becomes the
tracked ior. (The claim read the +z case as using the adjacent element i+1;
the source uses the current element i, see the counterexample.) -/
theorem raytrace_lens_ior (es : List LensElement)
    (intersect : LensElement → Ray → Option Hit) :
    (∀ (element_index : ℤ) (ray : Ray) e c io, 0 < ray.direction.z →
      getIdx es element_index = some e → e.kind = .lens c io →
      computeNextIor es element_index ray = io) ∧
    (∀ (element_index : ℤ) (ray : Ray) e c io, ¬0 < ray.direction.z →
      getIdx es (element_index - 1) = some e → e.kind = .lens c io →
      computeNextIor es element_index ray = io) ∧
    (∀ (element_index : ℤ) (ray : Ray) e, 0 < ray.direction.z →
      getIdx es element_index = some e → e.kind = .aperture →
      computeNextIor es element_index ray = 1) ∧
    (∀ (element_index : ℤ) (ray : Ray), 0 < ray.direction.z →
      getIdx es element_index = none →
      computeNextIor es element_index ray = 1) ∧
    (∀ (element_index : ℤ) (ray : Ray) e, ¬0 < ray.direction.z →
      getIdx es (element_index - 1) = some e → e.kind = .aperture →
      computeNextIor es element_index ray = 1) ∧
    (∀ (element_index : ℤ) (ray : Ray), ¬0 < ray.direction.z →
      getIdx es (element_index - 1) = none →
      computeNextIor es element_index ray = 1) ∧
    (∀ (fuel : ℕ) (element_index : ℤ) (ray : Ray) (ior : ℝ) e c io h wt,
      getIdx es (nextIdx element_index ray) = some e →
      e.kind = .lens c io →
      intersect e ray = some h →
      refract (-ray.direction) h.hitNormal ior
        (computeNextIor es (nextIdx element_index ray) ray) = some wt →
      raytraceFuel es intersect false (fuel + 1) element_index ray ior =
        raytraceFuel es intersect false fuel (nextIdx element_index ray)
          ⟨h.hitPos, wt⟩ (computeNextIor es (nextIdx element_index ray) ray)) := by
  refine ⟨?_, ?_, ?_, ?_, ?_, ?_, ?_⟩
  · intro element_index ray e c io hdz hget hk
    unfold computeNextIor
    rw [if_pos hdz]
    simp only [hget, hk]
  · intro element_index ray e c io hdz hget hk
    unfold computeNextIor
    rw [if_neg hdz]
    simp only [hget, hk]
  · intro element_index ray e hdz hget hk
    unfold computeNextIor
    rw [if_pos hdz]
    simp only [hget, hk]
  · intro element_index ray hdz hget
    unfold computeNextIor
    rw [if_pos hdz]
    simp only [hget]
  · intro element_index ray e hdz hget hk
    unfold computeNextIor
    rw [if_neg hdz]
    simp only [hget, hk]
  · intro element_index ray hdz hget
    unfold computeNextIor
    rw [if_neg hdz]
    simp only [hget]
  · intro fuel element_index ray ior e c io h wt hget hk hhit hrefr
    rw [raytraceFuel]
    simp only [hget, hk, hhit, hrefr, Bool.false_eq_true, if_false]

/-- Witness for C3 (amended): a single lens of ior 3/2 entered toward +z:
computeNextIor picks its own ior; and a -z traversal of a lens at index 1
whose lower neighbour (index 0) is an Aperture falls back to 1.0. -/
theorem raytrace_lens_ior_witness :
    computeNextIor [⟨0, 1, 1, 0, .lens 1 (3 / 2)⟩] 0
      ⟨⟨0, 0, 0⟩, ⟨0, 0, 1⟩⟩ = 3 / 2 ∧
    computeNextIor [⟨0, 1, 1, 0, .aperture⟩, ⟨1, 1, 1, 0, .lens 1 (3 / 2)⟩] 1
      ⟨⟨0, 0, 0⟩, ⟨0, 0, -1⟩⟩ = 1 := by
  constructor
  · exact (raytrace_lens_ior [⟨0, 1, 1, 0, .lens 1 (3 / 2)⟩] (fun _ _ => none)).1
      0 (⟨⟨0, 0, 0⟩, ⟨0, 0, 1⟩⟩ : Ray) (⟨0, 1, 1, 0, .lens 1 (3 / 2)⟩ : LensElement)
      1 (3 / 2) (by norm_num) (by norm_num [getIdx]) rfl
  · exact (raytrace_lens_ior
      [⟨0, 1, 1, 0, .aperture⟩, ⟨1, 1, 1, 0, .lens 1 (3 / 2)⟩]
      (fun _ _ => none)).2.2.2.2.1 1 (⟨⟨0, 0, 0⟩, ⟨0, 0, -1⟩⟩ : Ray)
      (⟨0, 1, 1, 0, .aperture⟩ : LensElement)
      (by norm_num) (by norm_num [getIdx]) rfl

/-- Counterexample for C3 as stated: two lenses of ior 3/2 (index 0) and 9/5
(index 1); a ray traveling toward +z being refracted at element 0 has
adjacent-in-direction-of-travel element index 1, a Lens of ior 9/5, yet the
engine computes next_ior = 3/2, the CURRENT element's ior. -/
theorem computeNextIor_uses_current_not_adjacent :
    computeNextIor [⟨0, 1, 1, 0, .lens 1 (3 / 2)⟩, ⟨1, 1, 1, 0, .lens 1 (9 / 5)⟩]
      0 ⟨⟨0, 0, 0⟩, ⟨0, 0, 1⟩⟩ = 3 / 2 ∧
    getIdx ([⟨0, 1, 1, 0, .lens 1 (3 / 2)⟩, ⟨1, 1, 1, 0, .lens 1 (9 / 5)⟩] :
        List LensElement) 1 =
      some (⟨1, 1, 1, 0, .lens 1 (9 / 5)⟩ : LensElement) ∧
    (3 / 2 : ℝ) ≠ 9 / 5 := by
  refine ⟨?_, by norm_num [getIdx], by norm_num⟩
  norm_num [computeNextIor, getIdx]

/-- The two-lens stack of the C1 counterexample (both iors 1). -/
noncomputable def esCyc : List LensElement :=
  [⟨0, 1, 1, 0, .lens 1 1⟩, ⟨1, 1, 1, 0, .lens 1 1⟩]

/-- The intersection capability of the C1 counterexample: every hit is at the
origin; element 0 reports normal (0,0,-1), element 1 reports (0,0,1), i.e.
each surface normal faces away from a ray arriving from between the two
elements, so the refraction formula reverses such a ray. -/
noncomputable def intersectCyc : LensElement → Ray → Option Hit :=
  fun e _ => some ⟨⟨0, 0, 0⟩, if e.index = 0 then ⟨0, 0, -1⟩ else ⟨0, 0, 1⟩⟩

/-- Counterexample for C1 as stated: on the two-element stack esCyc the
axial input ray bounces between the two lens surfaces: after 3 > 2 loop
iterations the walk is still running (the refracted direction flips the sign
of direction.z at each surface, so the index no longer advances
monotonically and the element count does not bound the iterations). -/
theorem raytrace_exceeds_element_bound :
    esCyc.length = 2 ∧
      raytrace esCyc intersectCyc ⟨⟨0, 0, 0⟩, ⟨0, 0, 1⟩⟩ false 3 = none := by
  constructor
  · rfl
  · norm_num [raytrace, raytraceFuel, nextIdx, getIdx, esCyc, intersectCyc,
      computeNextIor, refract, dot, Real.sqrt_one]

lemma getIdx_bounds {α : Type} {l : List α} {i : ℤ} {a : α}
    (h : getIdx l i = some a) : 0 ≤ i ∧ i < l.length := by
  unfold getIdx at h
  split at h
  · exact absurd h (by simp)
  · rename_i hneg
    rcases List.get?_eq_some.mp h with ⟨hlt, _⟩
    omega

/-- Claim C1 (amended): provided every refraction the engine can perform
preserves the sign predicate 0 < direction.z, each raytrace call terminates
within elements.length + 2 loop iterations, ending in exactly one of the
four outcomes: successful exit past either end of the stack, blocked at an
aperture, failed surface intersection, or total internal reflection. The
proviso is necessary: the per-iteration step direction is re-derived from
the current direction.z(), so a refraction that flips its sign makes the
index retreat and revisit elements, and the walk is then not bounded by the
element count and can run forever (see the counterexample). -/
theorem raytrace_terminates_of_sign_preserving (es : List LensElement)
    (intersect : LensElement → Ray → Option Hit) (reflection : Bool)
    (H : ∀ e r h wt ior1 ior2, intersect e r = some h →
      refract (-r.direction) h.hitNormal ior1 ior2 = some wt →
      (0 < wt.z ↔ 0 < r.direction.z))
    (ray_in : Ray) :
    ∃ o, raytrace es intersect ray_in reflection (es.length + 2) = some o := by
  have key : ∀ (fuel : ℕ) (i : ℤ) (ray : Ray) (ior : ℝ), -1 ≤ i →
      i ≤ es.length →
      (if 0 < ray.direction.z then (es.length : ℤ) - i else i + 1) + 1 ≤ fuel →
      raytraceFuel es intersect reflection fuel i ray ior ≠ none := by
    intro fuel
    induction fuel with
    | zero =>
      intro i ray ior hlo hhi hm
      split at hm <;> omega
    | succ fuel ih =>
      intro i ray ior hlo hhi hm
      rw [raytraceFuel]
      by_cases hdz : 0 < ray.direction.z
      · rw [if_pos hdz] at hm
        have hstep : nextIdx i ray = i + 1 := by rw [nextIdx, if_pos hdz]
        cases hg : getIdx es (nextIdx i ray) with
        | none => simp [hg]
        | some element =>
          obtain ⟨hb0, hb1⟩ := getIdx_bounds hg
          cases hk : element.kind with
          | aperture =>
            cases hint : intersect element ray with
            | none => simp [hg, hk, hint]
            | some res =>
              simp only [hg, hk, hint]
              refine ih (nextIdx i ray) ⟨res.hitPos, ray.direction⟩ 1
                (by omega) (by omega) ?_
              show (if 0 < ray.direction.z then
                (es.length : ℤ) - nextIdx i ray else nextIdx i ray + 1) + 1 ≤ fuel
              rw [if_pos hdz]
              omega
          | lens c io =>
            cases hint : intersect element ray with
            | none => simp [hg, hk, hint]
            | some res =>
              simp only [hg, hk, hint]
              by_cases hrefl : reflection = true
              · rw [if_pos hrefl]
                refine ih (nextIdx i ray) ray ior (by omega) (by omega) ?_
                rw [if_pos hdz]
                omega
              · rw [if_neg hrefl]
                cases hr : refract (-ray.direction) res.hitNormal ior
                  (computeNextIor es (nextIdx i ray) ray) with
                | none => simp [hr]
                | some wt =>
                  simp only [hr]
                  have hiff := H element ray res wt ior
                    (computeNextIor es (nextIdx i ray) ray) hint hr
                  refine ih (nextIdx i ray) ⟨res.hitPos, wt⟩
                    (computeNextIor es (nextIdx i ray) ray)
                    (by omega) (by omega) ?_
                  show (if 0 < wt.z then (es.length : ℤ) - nextIdx i ray
                    else nextIdx i ray + 1) + 1 ≤ fuel
                  rw [if_pos (hiff.mpr hdz)]
                  omega
      · rw [if_neg hdz] at hm
        have hstep : nextIdx i ray = i - 1 := by rw [nextIdx, if_neg hdz]; ring
        cases hg : getIdx es (nextIdx i ray) with
        | none => simp [hg]
        | some element =>
          obtain ⟨hb0, hb1⟩ := getIdx_bounds hg
          cases hk : element.kind with
          | aperture =>
            cases hint : intersect element ray with
            | none => simp [hg, hk, hint]
            | some res =>
              simp only [hg, hk, hint]
              refine ih (nextIdx i ray) ⟨res.hitPos, ray.direction⟩ 1
                (by omega) (by omega) ?_
              show (if 0 < ray.direction.z then
                (es.length : ℤ) - nextIdx i ray else nextIdx i ray + 1) + 1 ≤ fuel
              rw [if_neg hdz]
              omega
          | lens c io =>
            cases hint : intersect element ray with
            | none => simp [hg, hk, hint]
            | some res =>
              simp only [hg, hk, hint]
              by_cases hrefl : reflection = true
              · rw [if_pos hrefl]
                refine ih (nextIdx i ray) ray ior (by omega) (by omega) ?_
                rw [if_neg hdz]
                omega
              · rw [if_neg hrefl]
                cases hr : refract (-ray.direction) res.hitNormal ior
                  (computeNextIor es (nextIdx i ray) ray) with
                | none => simp [hr]
                | some wt =>
                  simp only [hr]
                  have hiff := H element ray res wt ior
                    (computeNextIor es (nextIdx i ray) ray) hint hr
                  refine ih (nextIdx i ray) ⟨res.hitPos, wt⟩
                    (computeNextIor es (nextIdx i ray) ray)
                    (by omega) (by omega) ?_
                  show (if 0 < wt.z then (es.length : ℤ) - nextIdx i ray
                    else nextIdx i ray + 1) + 1 ≤ fuel
                  rw [if_neg (fun hwt => hdz (hiff.mp hwt))]
                  omega
  unfold raytrace
  by_cases hdz : 0 < ray_in.direction.z
  · rw [if_pos hdz]
    have h := key (es.length + 2) (-1) ray_in 1 (by omega) (by omega)
      (by rw [if_pos hdz]; push_cast; omega)
    rcases Option.ne_none_iff_exists.mp h with ⟨o, ho⟩
    exact ⟨o, ho.symm⟩
  · rw [if_neg hdz]
    have h := key (es.length + 2) (es.length : ℤ) ray_in 1 (by omega)
      (by omega) (by rw [if_neg hdz]; push_cast; omega)
    rcases Option.ne_none_iff_exists.mp h with ⟨o, ho⟩
    exact ⟨o, ho.symm⟩

/-- Witness for C1 (amended): the empty stack with an always-missing
intersection capability satisfies the sign-preservation hypothesis
vacuously, and the trace terminates within 0 + 2 iterations. -/
theorem raytrace_terminates_witness :
    ∃ o, raytrace ([] : List LensElement) (fun _ _ => none)
      ⟨⟨0, 0, 0⟩, ⟨0, 0, 1⟩⟩ false (([] : List LensElement).length + 2) =
      some o :=
  raytrace_terminates_of_sign_preserving ([] : List LensElement)
    (fun _ _ => none) false
    (fun e r h wt ior1 ior2 hint _ => absurd hint (by simp))
    ⟨⟨0, 0, 0⟩, ⟨0, 0, 1⟩⟩

/-- The six cardinal values stored by LensSystem, in the declaration order
of the source fields. -/
structure CardinalPoints where
  object_focal_z : ℝ
  object_principal_z : ℝ
  object_focal_length : ℝ
  image_focal_z : ℝ
  image_principal_z : ℝ
  image_focal_length : ℝ

/-- Embeds LensSystem::computeCardinalPoints: probe height 0.001; the
object-plane probe starts at (0, height, elements.front()->z - 1.0) with
direction (0,0,1); on a successful trace, image_focal_z is the output ray
evaluated at t = -origin.y/direction.y, image_principal_z at
t = -(origin.y - height)/direction.y, image_focal_length their difference;
then symmetrically from (0, height, 0) with direction (0,0,-1) for the
object-side values. A failed trace makes the whole computation fail (the
source returns false); fuel exhaustion is also reported as none, matching a
source call that never returns. headI stands in for the C++
elements.front(), which is undefined on an empty stack. -/
noncomputable def computeCardinalPoints (es : List LensElement)
    (intersect : LensElement → Ray → Option Hit) (fuel : ℕ) :
    Option CardinalPoints :=
  let height : ℝ := 1 / 1000
  match raytrace es intersect ⟨⟨0, height, es.headI.z - 1⟩, ⟨0, 0, 1⟩⟩
      false fuel with
  | some (.exited ray_out) =>
    let t1 := -ray_out.origin.y / ray_out.direction.y
    let image_focal_z := (ray_out.at t1).z
    let t2 := -(ray_out.origin.y - height) / ray_out.direction.y
    let image_principal_z := (ray_out.at t2).z
    let image_focal_length := image_focal_z - image_principal_z
    match raytrace es intersect ⟨⟨0, height, 0⟩, ⟨0, 0, -1⟩⟩ false fuel with
    | some (.exited ray_out2) =>
      let t3 := -ray_out2.origin.y / ray_out2.direction.y
      let object_focal_z := (ray_out2.at t3).z
      let t4 := -(ray_out2.origin.y - height) / ray_out2.direction.y
      let object_principal_z := (ray_out2.at t4).z
      let object_focal_length := object_focal_z - object_principal_z
      some ⟨object_focal_z, object_principal_z, object_focal_length,
        image_focal_z, image_principal_z, image_focal_length⟩
    | _ => none
  | _ => none

/-- Claim C5: computeCardinalPoints launches a probe ray parallel to the
axis at height 0.001 from origin (0, 0.001, elements.front()->z - 1.0) with
direction (0,0,1) and traces it with raytrace; when that trace (and the
symmetric image-plane one) succeeds, image_focal_z is the output ray's axis
crossing at t = -origin.y/direction.y, image_principal_z its back-extension
to the probe height at t = -(origin.y - 0.001)/direction.y, and
image_focal_length = image_focal_z - image_principal_z; if the probe trace
fails (blocked, failed intersection or total internal reflection),
computeCardinalPoints reports failure to its caller. -/
theorem computeCardinalPoints_spec (es : List LensElement)
    (intersect : LensElement → Ray → Option Hit) (fuel : ℕ) :
    (∀ r1 r2,
      raytrace es intersect ⟨⟨0, 1 / 1000, es.headI.z - 1⟩, ⟨0, 0, 1⟩⟩
          false fuel = some (.exited r1) →
      raytrace es intersect ⟨⟨0, 1 / 1000, 0⟩, ⟨0, 0, -1⟩⟩ false fuel =
          some (.exited r2) →
      computeCardinalPoints es intersect fuel = some
        ⟨(r2.at (-r2.origin.y / r2.direction.y)).z,
         (r2.at (-(r2.origin.y - 1 / 1000) / r2.direction.y)).z,
         (r2.at (-r2.origin.y / r2.direction.y)).z -
           (r2.at (-(r2.origin.y - 1 / 1000) / r2.direction.y)).z,
         (r1.at (-r1.origin.y / r1.direction.y)).z,
         (r1.at (-(r1.origin.y - 1 / 1000) / r1.direction.y)).z,
         (r1.at (-r1.origin.y / r1.direction.y)).z -
           (r1.at (-(r1.origin.y - 1 / 1000) / r1.direction.y)).z⟩) ∧
    (∀ o, raytrace es intersect ⟨⟨0, 1 / 1000, es.headI.z - 1⟩, ⟨0, 0, 1⟩⟩
        false fuel = some o → (∀ r, o ≠ .exited r) →
      computeCardinalPoints es intersect fuel = none) := by
  constructor
  · intro r1 r2 h1 h2
    unfold computeCardinalPoints
    simp only [h1, h2]
  · intro o ho hne
    unfold computeCardinalPoints
    cases o with
    | exited r => exact absurd rfl (hne r)
    | blocked => simp only [ho]
    | missed => simp only [ho]
    | tir => simp only [ho]

/-- Witness for C5: on the empty stack both probe traces exit unchanged
after one bounds check; the divisions are by direction.y = 0 (treated as 0,
so each probe evaluates at its own origin), giving the concrete cardinal
record (0, 0, 0, -1, -1, 0). -/
theorem computeCardinalPoints_spec_witness :
    computeCardinalPoints ([] : List LensElement) (fun _ _ => none) 2 =
      some ⟨0, 0, 0, -1, -1, 0⟩ := by
  have hd : ([] : List LensElement).headI = (⟨0, 0, 0, 0, .aperture⟩ :
      LensElement) := rfl
  have h1 : raytrace ([] : List LensElement) (fun _ _ => none)
      ⟨⟨0, 1 / 1000, ([] : List LensElement).headI.z - 1⟩, ⟨0, 0, 1⟩⟩
      false 2 = some (.exited
        ⟨⟨0, 1 / 1000, ([] : List LensElement).headI.z - 1⟩, ⟨0, 0, 1⟩⟩) := by
    norm_num [raytrace, raytraceFuel, nextIdx, getIdx]
  have h2 : raytrace ([] : List LensElement) (fun _ _ => none)
      ⟨⟨0, 1 / 1000, 0⟩, ⟨0, 0, -1⟩⟩ false 2 =
      some (.exited ⟨⟨0, 1 / 1000, 0⟩, ⟨0, 0, -1⟩⟩) := by
    norm_num [raytrace, raytraceFuel, nextIdx, getIdx]
  have h := (computeCardinalPoints_spec ([] : List LensElement)
    (fun _ _ => none) 2).1 _ _ h1 h2
  rw [h, hd]
  norm_num [Ray.at]

/-- Claim C6: after construction, for adjacent elements i and i+1 (in stored
index-sorted order) z(i) = z(i+1) - thickness(i); the image-side-most
element's z plus its thickness is 0; and z(i) equals minus the sum of the
thicknesses of elements i through the last. -/
theorem constructElements_z_invariant (descs : List LensDescriptor) :
    (∀ i ei ei1, (constructElements descs).get? i = some ei →
        (constructElements descs).get? (i + 1) = some ei1 →
        ei.z = ei1.z - ei.thickness) ∧
    (∀ e, (constructElements descs).get?
        ((constructElements descs).length - 1) = some e →
        e.z + e.thickness = 0) ∧
    (∀ i ei, (constructElements descs).get? i = some ei →
        ei.z = -((((constructElements descs).drop i).map
          LensElement.thickness).sum)) := by
  have hmap : ∀ i, (((constructElements descs).drop i).map LensElement.thickness)
      = (((loadJSON descs).drop i).map LensElement.thickness) := by
    intro i
    rw [List.map_drop, List.map_drop, constructElements, setElementZ_map_thickness]
  have h3 : ∀ i ei, (constructElements descs).get? i = some ei →
      ei.z = -((((constructElements descs).drop i).map
        LensElement.thickness).sum) := by
    intro i ei h
    rw [constructElements, setElementZ_get?] at h
    cases he : (loadJSON descs).get? i with
    | none => rw [he] at h; exact absurd h (by simp)
    | some e =>
      rw [he] at h
      simp only [Option.map_some', Option.some.injEq] at h
      subst h
      rw [hmap i]
  refine ⟨?_, ?_, h3⟩
  · intro i ei ei1 hi hi1
    have hz := h3 i ei hi
    have hz1 := h3 (i + 1) ei1 hi1
    rw [List.get?_eq_getElem?] at hi
    obtain ⟨hlt, hgi⟩ := List.getElem?_eq_some_iff.mp hi
    have hdrop : (constructElements descs).drop i =
        ei :: (constructElements descs).drop (i + 1) := by
      rw [List.drop_eq_getElem_cons hlt, hgi]
    rw [hdrop, List.map_cons, List.sum_cons] at hz
    rw [hz, hz1]
    ring
  · intro e he
    have hz := h3 _ e he
    rw [List.get?_eq_getElem?] at he
    obtain ⟨hlt, hge⟩ := List.getElem?_eq_some_iff.mp he
    have hdrop : (constructElements descs).drop
        ((constructElements descs).length - 1) =
        [e] := by
      rw [List.drop_eq_getElem_cons hlt, hge, List.drop_eq_nil_of_le (by omega)]
    rw [hdrop] at hz
    simp only [List.map_cons, List.map_nil, List.sum_cons, List.sum_nil] at hz
    rw [hz]
    ring

/-- Witness for C6: for a concrete two-element prescription (thicknesses
2 mm and 3 mm), the constructed elements are at z = -0.005 and z = -0.003,
and the theorem's adjacent-difference and image-side conclusions hold. -/
theorem constructElements_z_invariant_witness :
    (constructElements [⟨0, 50, 2, 3 / 2, 20⟩, ⟨1, 0, 3, 1, 10⟩]).get? 0 =
      some ⟨0, 1 / 100, 1 / 500, -(1 / 200), .lens (1 / 20) (3 / 2)⟩ ∧
    (constructElements [⟨0, 50, 2, 3 / 2, 20⟩, ⟨1, 0, 3, 1, 10⟩]).get? 1 =
      some ⟨1, 1 / 200, 3 / 1000, -(3 / 1000), .aperture⟩ ∧
    (⟨0, 1 / 100, 1 / 500, -(1 / 200), .lens (1 / 20) (3 / 2)⟩ : LensElement).z =
      (⟨1, 1 / 200, 3 / 1000, -(3 / 1000), .aperture⟩ : LensElement).z -
      (⟨0, 1 / 100, 1 / 500, -(1 / 200), .lens (1 / 20) (3 / 2)⟩ : LensElement).thickness ∧
    (⟨1, 1 / 200, 3 / 1000, -(3 / 1000), .aperture⟩ : LensElement).z +
      (⟨1, 1 / 200, 3 / 1000, -(3 / 1000), .aperture⟩ : LensElement).thickness = 0 := by
  have h0 : (constructElements [⟨0, 50, 2, 3 / 2, 20⟩, ⟨1, 0, 3, 1, 10⟩]).get? 0 =
      some ⟨0, 1 / 100, 1 / 500, -(1 / 200), .lens (1 / 20) (3 / 2)⟩ := by
    norm_num [constructElements, loadJSON, toElement, List.insertionSort,
      List.orderedInsert, idxLe, setElementZ, assignZAux]
  have h1 : (constructElements [⟨0, 50, 2, 3 / 2, 20⟩, ⟨1, 0, 3, 1, 10⟩]).get? 1 =
      some ⟨1, 1 / 200, 3 / 1000, -(3 / 1000), .aperture⟩ := by
    norm_num [constructElements, loadJSON, toElement, List.insertionSort,
      List.orderedInsert, idxLe, setElementZ, assignZAux]
  have hlen : (constructElements [⟨0, 50, 2, 3 / 2, 20⟩, ⟨1, 0, 3, 1, 10⟩]).length = 2 := by
    norm_num [constructElements, loadJSON, toElement, List.insertionSort,
      List.orderedInsert, idxLe, setElementZ, assignZAux]
  refine ⟨h0, h1,
    (constructElements_z_invariant [⟨0, 50, 2, 3 / 2, 20⟩, ⟨1, 0, 3, 1, 10⟩]).1
      0 _ _ h0 h1,
    (constructElements_z_invariant [⟨0, 50, 2, 3 / 2, 20⟩, ⟨1, 0, 3, 1, 10⟩]).2.1
      _ ?_⟩
  rw [hlen]
  exact h1

/-- Claim C9 (amended): loadJSON performs no duplicate-index check: loading
always succeeds, the produced stack is exactly the converted descriptors
(a permutation, so duplicate index values are all retained) sorted
nondecreasingly by index. -/
theorem loadJSON_perm_sorted (descs : List LensDescriptor) :
    (loadJSON descs).Perm (descs.map toElement) ∧
      List.Sorted idxLe (loadJSON descs) :=
  ⟨List.perm_insertionSort idxLe _, List.sorted_insertionSort idxLe _⟩

/-- Counterexample for C9 as stated: loading a prescription whose two
descriptors both carry index 5 is not an error: loadJSON produces a stack of
two elements that share index 5. -/
theorem loadJSON_accepts_duplicate_index :
    (loadJSON [⟨5, 50, 2, 3 / 2, 20⟩, ⟨5, 0, 3, 1, 10⟩]).map
      LensElement.index = [5, 5] := by
  norm_num [loadJSON, toElement, List.insertionSort, List.orderedInsert, idxLe]

/-- Claim C8: for every vector v and every unit normal n (dot n n = 1),
reflect (reflect v n) n = v: reflect is an involution. -/
theorem reflect_involution (v n : Vec3) (h : dot n n = 1) :
    reflect (reflect v n) n = v := by
  have hc : n.x * n.x + n.y * n.y + n.z * n.z = 1 := h
  ext
  · show -(-v.x + 2 * dot v n * n.x) + 2 * dot (reflect v n) n * n.x = v.x
    simp only [reflect, dot, Vec3.neg_x, Vec3.neg_y, Vec3.neg_z, Vec3.add_x,
      Vec3.add_y, Vec3.add_z, Vec3.smul_x, Vec3.smul_y, Vec3.smul_z]
    linear_combination (4 * (v.x * n.x + v.y * n.y + v.z * n.z) * n.x) * hc
  · show -(-v.y + 2 * dot v n * n.y) + 2 * dot (reflect v n) n * n.y = v.y
    simp only [reflect, dot, Vec3.neg_x, Vec3.neg_y, Vec3.neg_z, Vec3.add_x,
      Vec3.add_y, Vec3.add_z, Vec3.smul_x, Vec3.smul_y, Vec3.smul_z]
    linear_combination (4 * (v.x * n.x + v.y * n.y + v.z * n.z) * n.y) * hc
  · show -(-v.z + 2 * dot v n * n.z) + 2 * dot (reflect v n) n * n.z = v.z
    simp only [reflect, dot, Vec3.neg_x, Vec3.neg_y, Vec3.neg_z, Vec3.add_x,
      Vec3.add_y, Vec3.add_z, Vec3.smul_x, Vec3.smul_y, Vec3.smul_z]
    linear_combination (4 * (v.x * n.x + v.y * n.y + v.z * n.z) * n.z) * hc

/-- Witness for C8: at v = (1,2,3) and the unit normal n = (0,0,1), the double
reflection returns v. -/
theorem reflect_involution_witness :
    dot ⟨0, 0, 1⟩ ⟨0, 0, 1⟩ = 1 ∧
      reflect (reflect ⟨1, 2, 3⟩ ⟨0, 0, 1⟩) ⟨0, 0, 1⟩ = (⟨1, 2, 3⟩ : Vec3) :=
  ⟨by norm_num [dot], reflect_involution ⟨1, 2, 3⟩ ⟨0, 0, 1⟩ (by norm_num [dot])⟩

/-- Claim C7 (amended): fresnel lies in [0,1] whenever both indices of
refraction are positive and 0 ≤ dot(wo,n) ≤ 1; unconditionally, at normal
incidence dot(wo,n) = 1 it returns exactly ((n1-n2)/(n1+n2))^2. (The claim
quantified over every direction and normal; with dot(wo,n) outside [0,1] the
Schlick formula can leave [0,1], see the counterexample.) -/
theorem fresnel_bounds_and_normal_incidence (wo n : Vec3) (n1 n2 : ℝ) :
    (0 < n1 → 0 < n2 → 0 ≤ dot wo n → dot wo n ≤ 1 →
      0 ≤ fresnel wo n n1 n2 ∧ fresnel wo n n1 n2 ≤ 1) ∧
    (dot wo n = 1 → fresnel wo n n1 n2 = ((n1 - n2) / (n1 + n2)) ^ (2 : ℕ)) := by
  constructor
  · intro h1 h2 hd0 hd1
    have hsum : (0 : ℝ) < n1 + n2 := by linarith
    have hf0lo : (0 : ℝ) ≤ ((n1 - n2) / (n1 + n2)) ^ (2 : ℕ) := sq_nonneg _
    have hf0hi : ((n1 - n2) / (n1 + n2)) ^ (2 : ℕ) ≤ 1 := by
      rw [div_pow, div_le_one (by positivity)]
      nlinarith
    have hxlo : (0 : ℝ) ≤ (1 - dot wo n) ^ (5 : ℕ) := by
      apply pow_nonneg; linarith
    have hxhi : (1 - dot wo n) ^ (5 : ℕ) ≤ 1 := by
      apply pow_le_one₀ (by linarith) (by linarith)
    unfold fresnel
    constructor
    · nlinarith
    · nlinarith
  · intro hd
    unfold fresnel
    rw [hd]
    ring

/-- Witness for C7 (amended): at wo = n = (0,0,1) (normal incidence, unit
vectors) and indices 1 and 3/2, fresnel is within [0,1] and equals the
normal-incidence value ((1-3/2)/(1+3/2))^2 = 1/25. -/
theorem fresnel_bounds_witness :
    (0 ≤ fresnel ⟨0, 0, 1⟩ ⟨0, 0, 1⟩ 1 (3 / 2) ∧
      fresnel ⟨0, 0, 1⟩ ⟨0, 0, 1⟩ 1 (3 / 2) ≤ 1) ∧
    fresnel ⟨0, 0, 1⟩ ⟨0, 0, 1⟩ 1 (3 / 2) = ((1 - 3 / 2) / (1 + 3 / 2)) ^ (2 : ℕ) :=
  ⟨(fresnel_bounds_and_normal_incidence ⟨0, 0, 1⟩ ⟨0, 0, 1⟩ 1 (3 / 2)).1
      (by norm_num) (by norm_num) (by norm_num [dot]) (by norm_num [dot]),
    (fresnel_bounds_and_normal_incidence ⟨0, 0, 1⟩ ⟨0, 0, 1⟩ 1 (3 / 2)).2
      (by norm_num [dot])⟩

/-- Counterexample for C7 as stated: with the unit vectors wo = (0,0,-1),
n = (0,0,1) (so dot(wo,n) = -1) and indices n1 = n2 = 1, fresnel returns 32,
which is not in [0,1]. -/
theorem fresnel_not_always_in_unit_interval :
    fresnel ⟨0, 0, -1⟩ ⟨0, 0, 1⟩ 1 1 = 32 ∧
      ¬(0 ≤ fresnel ⟨0, 0, -1⟩ ⟨0, 0, 1⟩ 1 1 ∧
        fresnel ⟨0, 0, -1⟩ ⟨0, 0, 1⟩ 1 1 ≤ 1) := by
  norm_num [fresnel, dot]

/-- Claim C2 (amended): refract reports failure (returns no transmitted
direction) if and only if ior1/ior2 * sin(thetaI) ≥ 1, with
sin(thetaI) = sqrt(max(0, 1 - cos^2(thetaI))) and cos(thetaI) = dot(wi,n);
on success it produces some transmitted direction. (The claim had strict
inequality: at ior1/ior2 * sin(thetaI) = 1 exactly, the source tests
sin2ThetaT >= 1 and fails, see the counterexample.) -/
theorem refract_fails_iff (wi n : Vec3) (ior1 ior2 : ℝ)
    (h1 : 0 ≤ ior1) (h2 : 0 < ior2) :
    refract wi n ior1 ior2 = none ↔
      1 ≤ ior1 / ior2 * Real.sqrt (max 0 (1 - dot wi n * dot wi n)) := by
  have heta : 0 ≤ ior1 / ior2 := div_nonneg h1 h2.le
  have hM : (0 : ℝ) ≤ max 0 (1 - dot wi n * dot wi n) := le_max_left _ _
  have hs : 0 ≤ Real.sqrt (max 0 (1 - dot wi n * dot wi n)) := Real.sqrt_nonneg _
  have hsq : Real.sqrt (max 0 (1 - dot wi n * dot wi n)) *
      Real.sqrt (max 0 (1 - dot wi n * dot wi n)) =
      max 0 (1 - dot wi n * dot wi n) := Real.mul_self_sqrt hM
  unfold refract
  constructor
  · intro h
    by_cases hc : 1 ≤ ior1 / ior2 * (ior1 / ior2) * max 0 (1 - dot wi n * dot wi n)
    · nlinarith [mul_nonneg heta hs]
    · simp only [if_neg hc] at h
      exact absurd h (Option.some_ne_none _)
  · intro h
    have hc : 1 ≤ ior1 / ior2 * (ior1 / ior2) * max 0 (1 - dot wi n * dot wi n) := by
      nlinarith [mul_nonneg heta hs]
    simp only [if_pos hc]

/-- Witness for C2 (amended): at wi = n = (0,0,1), ior1 = 1, ior2 = 2, both
sides of the equivalence are false: refract succeeds and
(1/2)*sin(thetaI) = 0 < 1. -/
theorem refract_fails_iff_witness :
    (0 : ℝ) ≤ 1 ∧ (0 : ℝ) < 2 ∧
      ((refract ⟨0, 0, 1⟩ ⟨0, 0, 1⟩ 1 2 = none ↔
        1 ≤ 1 / 2 * Real.sqrt (max 0 (1 - dot ⟨0, 0, 1⟩ ⟨0, 0, 1⟩ *
          dot ⟨0, 0, 1⟩ ⟨0, 0, 1⟩)))) :=
  ⟨by norm_num, by norm_num,
    refract_fails_iff ⟨0, 0, 1⟩ ⟨0, 0, 1⟩ 1 2 (by norm_num) (by norm_num)⟩

/-- Counterexample for C2 as stated: at wi = (1,0,0), n = (0,0,1),
ior1 = ior2 = 1 we have cos(thetaI) = 0, so ior1/ior2 * sin(thetaI) = 1,
not strictly greater than 1, yet refract fails (the source tests
sin2ThetaT >= 1, which holds with equality). -/
theorem refract_fails_at_critical_angle :
    refract ⟨1, 0, 0⟩ ⟨0, 0, 1⟩ 1 1 = none ∧
      ¬(1 < (1 : ℝ) / 1 * Real.sqrt (max 0 (1 - dot ⟨1, 0, 0⟩ ⟨0, 0, 1⟩ *
        dot ⟨1, 0, 0⟩ ⟨0, 0, 1⟩))) := by
  constructor
  · unfold refract
    norm_num [dot]
  · norm_num [dot]
